import Mathlib

/-
  Verification development for `replicating-tmux` (Rust), a minimal
  terminal-multiplexing daemon: a server owns a PTY running a shell,
  clients attach over a unix socket, client input is aggregated onto the
  single PTY writer and PTY output is delivered back to clients.

  Shallow embedding of the source files:
    src/fd.rs        - FileDescriptor resource (read EIO-as-EOF translation)
    src/pty.rs       - Pty::open, PtyController::take_writer / try_clone_reader
    src/socket.rs    - bind_unix_socket
    src/bin/server.rs - Client pumps, Server accept loop and input aggregator
    src/bin/client.rs - client main / run

  Machine bytes are modelled as `Nat`, chunks as `List Nat`; OS effects
  (reads, writes, sends, accept results) are modelled as explicit event
  lists so that thread schedules become quantified data.
-/

namespace RsTmux

abbrev Byte := Nat

abbrev Chunk := List Byte

/-! ### src/fd.rs - FileDescriptor::read (lines 62-80) -/

/-- Outcome of the raw `libc::read` call: a byte count, or `-1` with an
errno (modelled as the errno value). -/
inductive OsReadResult : Type
  | ok (n : Nat)
  | err (errno : Nat)
  deriving DecidableEq, Repr

/-- `libc::EIO`. -/
def EIO : Nat := 5

/-- `FileDescriptor::read` (src/fd.rs:62-80): a failing OS read whose errno
is `EIO` is translated to `Ok(0)` (end-of-stream, worker side of the PTY
closed); any other errno is surfaced as the error; a successful read
returns its byte count unchanged. -/
def fdRead : OsReadResult → Except Nat Nat
  | .ok n => .ok n
  | .err e => if e = EIO then .ok 0 else .error e

/-! ### src/bin/server.rs - Client::process_input (lines 48-79)

The input pump reads from the client socket into a fixed 1024-byte buffer
(`inbuf`) and sends `inbuf[..bytes_read].to_vec()` into the aggregation
channel.  The socket is modelled as a pending byte stream; one kernel read
with a 1024-byte buffer delivers `min (avail, 1024, remaining)` bytes,
where `avail` is how many bytes the kernel chooses to deliver on that
call.  Loop exits: the stop flag observed set at the loop top, a read
returning 0 (EOF), a read error, or a failed channel send. -/

/-- One loop iteration's environment for the input pump. -/
inductive PumpEvent : Type
  | read (avail : Nat) (sendOk : Bool)
  | readErr
  | stopObserved
  deriving DecidableEq, Repr

/-- Buffer size of the input pump's `inbuf` (src/bin/server.rs:54). -/
def INBUF_SIZE : Nat := 1024

/-- `Client::process_input` loop (src/bin/server.rs:53-76): the list of
chunks actually sent into the aggregation channel, given the pending
socket bytes and the per-iteration events.  A read returning 0 bytes is
EOF (`break`), a chunk is sent only when the read returned at least one
byte and the send succeeds; any failure breaks the loop. -/
def inputPump (pending : List Byte) : List PumpEvent → List Chunk
  | [] => []
  | .stopObserved :: _ => []
  | .readErr :: _ => []
  | .read avail sendOk :: rest =>
    let n := min avail (min INBUF_SIZE pending.length)
    if n = 0 then []
    else if sendOk then pending.take n :: inputPump (pending.drop n) rest
    else []

/-! ### src/bin/server.rs - Server::process_input (lines 186-208)

The aggregator's sole consumer: loops `recv()` on the mpsc receiver and
issues one `write` call on the PTY writer per received chunk, with the
whole chunk as payload.  Loop exits: stop flag observed set, `recv`
error (channel closed), or a failed write. -/

/-- One loop iteration's environment for the aggregator consumer:
a chunk arriving from the queue together with whether the subsequent
PTY write succeeds, or a closed channel, or the stop flag observed. -/
inductive ConsumerEvent : Type
  | chunk (data : Chunk) (writeOk : Bool)
  | queueClosed
  | stopObserved
  deriving DecidableEq, Repr

/-- The payloads of the `write` calls issued by `Server::process_input`
(src/bin/server.rs:190-204), in issue order.  Each received chunk is
passed whole to exactly one `write` call; a failed write breaks the
loop after that call. -/
def aggregatorWrites : List ConsumerEvent → List Chunk
  | [] => []
  | .stopObserved :: _ => []
  | .queueClosed :: _ => []
  | .chunk data writeOk :: rest =>
    data :: (if writeOk then aggregatorWrites rest else [])

/-- The chunks that arrived on the aggregation queue, in arrival order,
for a given event list (the queue contents the consumer could see). -/
def arrivedChunks : List ConsumerEvent → List Chunk
  | [] => []
  | .chunk data _ :: rest => data :: arrivedChunks rest
  | _ :: rest => arrivedChunks rest

/-! ### src/pty.rs - PtyController::take_writer (lines 124-132)

`take_writer` checks the `writer_taken` cell first; if set it errors with
"writer already taken".  Otherwise it duplicates the controller
descriptor (`F_DUPFD_CLOEXEC`, which can fail), and only after a
successful duplication sets the cell and returns the new handle.  Issued
handles are independent duplicates; a later failing call does not touch
them. -/

/-- State of a `PtyController` relevant to `take_writer`: the
`writer_taken` cell, the next descriptor number the OS would hand out for
a duplicate, and the descriptors of issued (still open) write handles. -/
structure WriterState : Type where
  writerTaken : Bool
  nextFd : Nat
  issued : List Nat
  deriving DecidableEq, Repr

/-- Error outcomes of `take_writer`. -/
inductive TakeErr : Type
  | alreadyTaken
  | dupFailed
  deriving DecidableEq, Repr

/-- `PtyController::take_writer` (src/pty.rs:124-132), with `dupOk` the
outcome of the underlying `FileDescriptor::duplicate` call. -/
def takeWriter (s : WriterState) (dupOk : Bool) : Except TakeErr Nat × WriterState :=
  if s.writerTaken then (.error .alreadyTaken, s)
  else if dupOk then
    (.ok s.nextFd, ⟨true, s.nextFd + 1, s.issued ++ [s.nextFd]⟩)
  else (.error .dupFailed, s)

/-- A sequence of `take_writer` calls on one session, given each call's
duplication outcome; returns the call results in order and the final
state. -/
def runTakes (s : WriterState) : List Bool → List (Except TakeErr Nat) × WriterState
  | [] => ([], s)
  | d :: ds =>
    let r := takeWriter s d
    let rs := runTakes r.2 ds
    (r.1 :: rs.1, rs.2)

/-- Fresh controller state: writer not yet taken, no handles issued. -/
def initialWriterState (f0 : Nat) : WriterState := ⟨false, f0, []⟩

/-! ### src/pty.rs - Pty::open (lines 33-73), descriptor accounting

`Pty::open` opens the controller with `posix_openpt` into a raw `i32`
(`controller_fd`), then runs `grantpt`, `unlockpt`, `ptsname`, opens the
worker device, and spawns the command.  The controller fd is only wrapped
into the RAII `FileDescriptor` on the success path (src/pty.rs:70); every
earlier `return Err(...)` leaves the raw controller fd open.  The worker
fd is wrapped immediately (src/pty.rs:66) and so is closed by `Drop` when
`spawn_command` fails or when `open` returns. -/

/-- Environment for one `Pty::open` run: which OS steps succeed, and the
descriptors the OS would hand out. -/
structure OpenEnv : Type where
  controllerFd : Option Nat
  grantOk : Bool
  unlockOk : Bool
  ptsnameOk : Bool
  workerFd : Option Nat
  spawnOk : Bool
  deriving DecidableEq, Repr

/-- Which step of `Pty::open` failed. -/
inductive OpenError : Type
  | openpt
  | grant
  | unlock
  | ptsname
  | workerOpen
  | spawn
  deriving DecidableEq, Repr

/-- `Pty::open` (src/pty.rs:33-73): the result (on success, the controller
descriptor now owned by the returned `Pty`), paired with the descriptors
left open but owned by no live value when the function returns (leaked).
Tracing the source: on `posix_openpt` failure nothing is open; after it
succeeds, each of the `grantpt` / `unlockpt` / `ptsname` / worker-open
failure paths returns with the raw controller fd still open (it is not
yet a `FileDescriptor`); on spawn failure the worker's `FileDescriptor`
is dropped (closed) but the raw controller fd again stays open; on
success the worker is closed on scope exit and the controller is owned by
the `Pty`, so nothing is leaked. -/
def ptyOpen (e : OpenEnv) : Except OpenError Nat × List Nat :=
  match e.controllerFd with
  | none => (.error .openpt, [])
  | some cfd =>
    if ¬ e.grantOk then (.error .grant, [cfd])
    else if ¬ e.unlockOk then (.error .unlock, [cfd])
    else if ¬ e.ptsnameOk then (.error .ptsname, [cfd])
    else
      match e.workerFd with
      | none => (.error .workerOpen, [cfd])
      | some _ =>
        if ¬ e.spawnOk then (.error .spawn, [cfd])
        else (.ok cfd, [])

/-! ### src/bin/server.rs - per-client PTY readers and the shared stream

`Server::accept_clients` (src/bin/server.rs:151-162): every accepted
client triggers `pty.lock().unwrap().try_clone_reader().unwrap()`, and
`PtyController::try_clone_reader` (src/pty.rs:119-122) duplicates the
controller descriptor, so the k-th accepted client's output pump reads
from its own fresh duplicate of the controller fd.  There is no
broadcaster: the pumps read the duplicates directly
(src/bin/server.rs:94).

Duplicated descriptors share the one underlying PTY stream, so the
pumps' reads race: each read, whichever client's pump performs it,
consumes the next pending chunk of the stream and delivers it to that
client alone. -/

/-- A client record as built by the accept loop: its index and the
descriptor of the PTY-reader duplicate handed to its output pump. -/
structure SClient : Type where
  id : Nat
  readerFd : Nat
  deriving DecidableEq, Repr

/-- The clients built by `n` successful accepts, when the OS hands out
duplicate descriptors starting at `f0`: client `k` gets its own reader
descriptor `f0 + k` (one `try_clone_reader` per accept). -/
def acceptedClients (n : Nat) (f0 : Nat) : List SClient :=
  (List.range n).map fun k => ⟨k, f0 + k⟩

/-- Racing reads on the shared stream: `sched` lists, in completion
order, which client's output pump performs each read; each read consumes
the next chunk and delivers it to that client alone.  Returns the
(client, chunk) delivery list. -/
def raceReads : List Chunk → List Nat → List (Nat × Chunk)
  | c :: cs, i :: is => (i, c) :: raceReads cs is
  | _, _ => []

/-- The stream of chunks client `i` observes out of a delivery list. -/
def observedBy (i : Nat) : List (Nat × Chunk) → List Chunk
  | [] => []
  | p :: ps => if p.1 = i then p.2 :: observedBy i ps else observedBy i ps

/-! ### src/bin/server.rs - Client stop flag and socket shutdown

`Client::stop` (src/bin/server.rs:38-42) runs
`self.stream.shutdown(Shutdown::Both)?` and only then
`self.stop.store(true)`; a failing shutdown returns early with the flag
untouched.  The two pump loops (src/bin/server.rs:53-76 and 86-110) end by
`stop.store(true)` after any EOF / error / send failure, and never touch
the socket's shutdown state.  No code path ever stores `false`. -/

/-- Per-connection state: the atomic stop flag and whether the socket has
been shut down in both directions. -/
structure ConnState : Type where
  stopFlag : Bool
  sockShutdown : Bool
  deriving DecidableEq, Repr

/-- A trigger that can drive a connection toward stopping. -/
inductive Trigger : Type
  | inputPumpEnd
  | outputPumpEnd
  | stopCall (shutdownOk : Bool)
  deriving DecidableEq, Repr

/-- Effect of one trigger on the connection state, traced from the
source: a pump ending stores `true` into the flag only
(src/bin/server.rs:75, 109); `Client::stop` with a succeeding shutdown
shuts the socket and stores the flag (src/bin/server.rs:39-41); a failing
shutdown returns early, changing nothing (the `?` on line 39). -/
def connStep (s : ConnState) : Trigger → ConnState
  | .inputPumpEnd => { s with stopFlag := true }
  | .outputPumpEnd => { s with stopFlag := true }
  | .stopCall ok => if ok then { stopFlag := true, sockShutdown := true } else s

/-- A whole sequence of triggers, in the order they take effect. -/
def connRun (s : ConnState) : List Trigger → ConnState
  | [] => s
  | t :: ts => connRun (connStep s t) ts

/-! ### src/bin/server.rs - listener loop (Server::accept_clients, lines 145-181)

Loop body: if the stop flag is set, break.  Accept: on a connection,
build the client, clone a reader, start pumps, then
`clients.retain(|c| !c.stopped())` and push the new client; on
`WouldBlock`, sleep; on any other accept error, break.  Then the
iteration ends with `if pty.stopped() { stop.store(true) }`.  After the
loop: `for client in clients { let _ = client.stop(); }` — each client's
stop attempt is made and its result discarded — then `stop.store(true)`.
-/

/-- A connection as registered by the listener: whether its stop flag is
already set when the listener inspects it (the `retain` check), and
whether its socket shutdown would succeed when `Client::stop` is called
on it. -/
structure RegClient : Type where
  alreadyStopped : Bool
  shutdownOk : Bool
  deriving DecidableEq, Repr

/-- One iteration's accept outcome. -/
inductive AcceptEvent : Type
  | conn (c : RegClient)
  | wouldBlock
  | fatal
  deriving DecidableEq, Repr

/-- Listener loop state: the server-wide stop flag and the registry. -/
structure ListenerState : Type where
  stop : Bool
  clients : List RegClient
  deriving DecidableEq, Repr

/-- Modelled from the spec: `Pty::stopped` is called at
src/bin/server.rs:169 but no such method is defined in src/src/pty.rs
(the definition is missing from the sources provided); per spec §4.5 the
per-iteration check reports whether the shell's child process has
exited. -/
def ptyStopped (childExited : Bool) : Bool := childExited

/-- The registry update on a successful accept
(src/bin/server.rs:159-161): evict clients whose stop flag is set, then
push the new one. -/
def registerClient (cs : List RegClient) (c : RegClient) : List RegClient :=
  (cs.filter fun x => ¬ x.alreadyStopped) ++ [c]

/-- Effect of a non-fatal accept outcome on the listener state
(src/bin/server.rs:151-165): a connection is registered (clone reader,
start pumps, evict stopped entries, push); `WouldBlock` just sleeps. -/
def afterAccept (s : ListenerState) : AcceptEvent → ListenerState
  | .conn c => ⟨s.stop, registerClient s.clients c⟩
  | .wouldBlock => s
  | .fatal => s

/-- The listener loop (src/bin/server.rs:146-172) over a list of
per-iteration environments (accept outcome, whether the shell child has
exited by that iteration's end-check).  Returns the state after the loop
and the number of loop iterations executed: break at the loop top once
the stop flag is set; break out of the match on a fatal accept error;
otherwise handle the accept and then run the shell-liveness check, which
raises the stop flag when the child has exited. -/
def runListener (s : ListenerState) : List (AcceptEvent × Bool) → ListenerState × Nat
  | [] => (s, 0)
  | (ev, childExited) :: rest =>
    if s.stop then (s, 0)
    else if ev = .fatal then (s, 1)
    else
      let s1 := afterAccept s ev
      let s2 : ListenerState :=
        if ptyStopped childExited then ⟨true, s1.clients⟩ else s1
      let r := runListener s2 rest
      (r.1, r.2 + 1)

/-- Result of one `Client::stop` attempt (src/bin/server.rs:38-42):
succeeds iff the socket shutdown succeeds. -/
def clientStopResult (c : RegClient) : Except Unit Unit :=
  if c.shutdownOk then .ok () else .error ()

/-- The shutdown sweep after the loop (src/bin/server.rs:174-177):
`let _ = client.stop()` for every registered client, each attempt made
and its result discarded independently of the others. -/
def stopSweep (cs : List RegClient) : List (Except Unit Unit) :=
  cs.map clientStopResult

/-! ### src/socket.rs - bind_unix_socket (lines 5-18) and the rendezvous path

Both binaries derive the rendezvous path with the same
`format!("/tmp/rstmux/{}.sock", session_name)` (src/bin/server.rs:138 and
src/bin/client.rs:33).  `bind_unix_socket` creates the path's missing
parent directories (`fs::create_dir_all` on `Path::parent`), removes a
pre-existing file at the path, then binds.  Filesystem paths are
modelled as absolute component lists (`Path::parent` drops the last
component; `create_dir_all` creates every missing ancestor). -/

/-- Rendezvous path derived by the server (src/bin/server.rs:138). -/
def serverSocketPath (name : String) : String :=
  "/tmp/rstmux/" ++ name ++ ".sock"

/-- Rendezvous path derived by the client (src/bin/client.rs:33). -/
def clientSocketPath (name : String) : String :=
  "/tmp/rstmux/" ++ name ++ ".sock"

/-- An absolute filesystem path, as its list of components. -/
abbrev FPath := List String

/-- The components of the rendezvous path for a session name (the string
`/tmp/rstmux/<name>.sock` split at the separators, for session names
containing no separator). -/
def socketPathComps (name : String) : FPath :=
  ["tmp", "rstmux", name ++ ".sock"]

/-- `Path::parent`: drop the last component; the root has no parent. -/
def pathParent : FPath → Option FPath
  | [] => none
  | cs => some cs.dropLast

/-- All nonempty ancestor paths of a path, the path itself included
(what `fs::create_dir_all` ensures exists). -/
def pathPrefixes : FPath → List FPath
  | [] => []
  | c :: cs => [c] :: (pathPrefixes cs).map fun p => c :: p

/-- Model filesystem: the existing directories and regular files. -/
structure FsState : Type where
  dirs : List FPath
  files : List FPath
  deriving DecidableEq, Repr

/-- `fs::create_dir_all` (src/socket.rs:8): create the directory and all
of its missing ancestors. -/
def createDirAll (fs : FsState) (dir : FPath) : FsState :=
  { fs with dirs := fs.dirs ++ (pathPrefixes dir).filter fun d => d ∉ fs.dirs }

/-- First step of `bind_unix_socket` (src/socket.rs:7-9): create the
parent directories of the socket path if it has a parent. -/
def bindPrepareDirs (fs : FsState) (path : FPath) : FsState :=
  match pathParent path with
  | some p => createDirAll fs p
  | none => fs

/-- Second step of `bind_unix_socket` (src/socket.rs:12-14): if a file
exists at the path, remove it (cleanup of a stale socket artifact). -/
def bindRemoveStale (fs : FsState) (path : FPath) : FsState :=
  if path ∈ fs.files then { fs with files := fs.files.filter fun q => q ≠ path }
  else fs

/-- `bind_unix_socket` (src/socket.rs:5-18): prepare parents, remove a
stale artifact, then bind (the bound socket appears at the path). -/
def bindUnixSocket (fs : FsState) (path : FPath) : FsState :=
  let fs2 := bindRemoveStale (bindPrepareDirs fs path) path
  { fs2 with files := fs2.files ++ [path] }

/-! ### src/bin/client.rs - main (lines 129-133) and Client::run (25-40)

`main` runs `client.run().unwrap()` and then prints
"rstmux client exited".  `run` returns `Err` on connect failure or on
either stream-clone failure during pump setup; after successful setup the
input-pump loop always returns `Ok(())`.  An `Err` therefore panics the
`unwrap` before the notice line is reached. -/

/-- Setup outcomes that decide `Client::run`'s result
(src/bin/client.rs:25-40): the `UnixStream::connect` call, the stream
clone in `draw`, and the stream clone in `process_input`. -/
structure ClientSetup : Type where
  connectOk : Bool
  drawCloneOk : Bool
  inputCloneOk : Bool
  deriving DecidableEq, Repr

/-- Result of `Client::run` (src/bin/client.rs:25-40): an error on any
setup failure, otherwise `Ok` when the pump loop eventually breaks. -/
def clientRun (s : ClientSetup) : Except Unit Unit :=
  if ¬ s.connectOk then .error ()
  else if ¬ s.drawCloneOk then .error ()
  else if ¬ s.inputCloneOk then .error ()
  else .ok ()

/-- How the client process ends: a normal exit or an `unwrap` panic, with
the lines printed to stdout before exiting. -/
inductive ProcExit : Type
  | normal (printed : List String)
  | panicked (printed : List String)
  deriving DecidableEq, Repr

/-- The termination notice (src/bin/client.rs:132). -/
def TERMINATION_NOTICE : String := "rstmux client exited"

/-- `main` (src/bin/client.rs:129-133): `client.run().unwrap()` followed
by the notice `println!`; an `Err` from `run` panics the `unwrap` before
the notice line executes. -/
def clientMain (s : ClientSetup) : ProcExit :=
  match clientRun s with
  | .ok () => .normal [TERMINATION_NOTICE]
  | .error () => .panicked []

/-- The lines a finished client process printed. -/
def printedLines : ProcExit → List String
  | .normal l => l
  | .panicked l => l

/-- Render a component path back to the absolute path string. -/
def pathToString (p : FPath) : String :=
  "/" ++ String.intercalate "/" p

/-! ## Theorems -/

/-! ### Helper lemmas -/

/-- The write payloads issued by the aggregator consumer form an initial
segment of the chunks that arrived on the queue. -/
theorem aggregatorWrites_arrival (evs : List ConsumerEvent) :
    aggregatorWrites evs <+: arrivedChunks evs := by
  induction evs with
  | nil => exact ⟨[], rfl⟩
  | cons ev rest ih =>
    cases ev with
    | stopObserved => exact List.nil_prefix
    | queueClosed => exact List.nil_prefix
    | chunk data writeOk =>
      cases writeOk with
      | true =>
        obtain ⟨t, ht⟩ := ih
        exact ⟨t, by simp [aggregatorWrites, arrivedChunks, ht]⟩
      | false =>
        exact ⟨arrivedChunks rest, by simp [aggregatorWrites, arrivedChunks]⟩

/-- When every write succeeds and neither stop nor channel closure
intervenes, the consumer writes exactly the queue, chunk for chunk. -/
theorem aggregatorWrites_all (queue : List Chunk) :
    aggregatorWrites (queue.map fun d => ConsumerEvent.chunk d true) = queue := by
  induction queue with
  | nil => rfl
  | cons d rest ih => simp [aggregatorWrites, ih]

/-- The bytes the input pump enqueues, concatenated, form an initial
segment of the client socket's pending byte stream. -/
theorem inputPump_flat (pending : List Byte) (evs : List PumpEvent) :
    (inputPump pending evs).flatten <+: pending := by
  induction evs generalizing pending with
  | nil => exact List.nil_prefix
  | cons ev rest ih =>
    cases ev with
    | stopObserved => exact List.nil_prefix
    | readErr => exact List.nil_prefix
    | read avail sendOk =>
      by_cases hn : min avail (min INBUF_SIZE pending.length) = 0
      · simp [inputPump, hn]
      · cases sendOk with
        | true =>
          obtain ⟨t, ht⟩ := ih (pending.drop (min avail (min INBUF_SIZE pending.length)))
          refine ⟨t, ?_⟩
          simp only [inputPump, hn, if_false, if_true, List.flatten_cons]
          rw [List.append_assoc, ht, List.take_append_drop]
        | false => simp [inputPump, hn]

/-- After the writer has been taken, every further `take_writer` call
errors with "already taken" and the state is untouched. -/
theorem runTakes_after_taken (ds : List Bool) (s : WriterState)
    (h : s.writerTaken = true) :
    runTakes s ds = (ds.map fun _ => Except.error TakeErr.alreadyTaken, s) := by
  induction ds with
  | nil => rfl
  | cons d ds ih => simp [runTakes, takeWriter, h, ih]

/-- Over any call sequence from a not-yet-taken state, at most one
`take_writer` call returns a handle. -/
theorem runTakes_ok_count (calls : List Bool) (s : WriterState)
    (hs : s.writerTaken = false) :
    ((runTakes s calls).1.countP fun r => r.isOk) ≤ 1 := by
  induction calls generalizing s with
  | nil => simp [runTakes]
  | cons d ds ih =>
    cases d with
    | true =>
      have herrs : ∀ l : List Bool,
          (List.countP (fun r : Except TakeErr Nat => r.isOk)
            (l.map fun _ => Except.error TakeErr.alreadyTaken)) = 0 := by
        intro l
        induction l with
        | nil => rfl
        | cons x xs ihx => simp [List.countP_cons, Except.isOk, Except.toBool, ihx]
      simp [runTakes, takeWriter, hs,
        runTakes_after_taken ds ⟨true, s.nextFd + 1, s.issued ++ [s.nextFd]⟩ rfl,
        List.countP_cons, Except.isOk, Except.toBool, herrs ds]
    | false =>
      simpa [runTakes, takeWriter, hs, List.countP_cons, Except.isOk,
        Except.toBool] using ih s hs

/-- Chunk by chunk, racing reads consume the shared stream in order:
the delivered chunks form an initial segment of the stream. -/
theorem raceReads_chunks (stream : List Chunk) (sched : List Nat) :
    (raceReads stream sched).map Prod.snd <+: stream := by
  induction stream generalizing sched with
  | nil => cases sched <;> exact List.nil_prefix
  | cons c cs ih =>
    cases sched with
    | nil => exact List.nil_prefix
    | cons i is =>
      obtain ⟨t, ht⟩ := ih is
      exact ⟨t, by simp [raceReads, ht]⟩

/-- Exactly one read completes per consumed chunk. -/
theorem raceReads_length (stream : List Chunk) (sched : List Nat) :
    (raceReads stream sched).length = min stream.length sched.length := by
  induction stream generalizing sched with
  | nil => cases sched <;> simp [raceReads]
  | cons c cs ih =>
    cases sched with
    | nil => simp [raceReads]
    | cons i is =>
      simp only [raceReads, List.length_cons, ih is, List.length_cons]
      omega

/-- What one client observes is a subsequence of the shared stream. -/
theorem observedBy_sub (i : Nat) (stream : List Chunk) (sched : List Nat) :
    List.Sublist (observedBy i (raceReads stream sched)) stream := by
  induction stream generalizing sched with
  | nil => cases sched <;> simp [raceReads, observedBy]
  | cons c cs ih =>
    cases sched with
    | nil => simp [raceReads, observedBy]
    | cons j is =>
      by_cases hij : j = i
      · simpa [raceReads, observedBy, hij] using (ih is).cons₂ c
      · simpa [raceReads, observedBy, hij] using (ih is).cons c

/-- Deliveries to two distinct clients are disjoint: together they never
exceed the number of chunks delivered at all. -/
theorem observedBy_pair_length (i j : Nat) (hij : i ≠ j)
    (l : List (Nat × Chunk)) :
    (observedBy i l).length + (observedBy j l).length ≤ l.length := by
  induction l with
  | nil => simp [observedBy]
  | cons p ps ih =>
    by_cases hpi : p.1 = i
    · have hpj : ¬ p.1 = j := by rw [hpi]; exact hij
      simp only [observedBy, if_pos hpi, if_neg hpj, List.length_cons]
      omega
    · by_cases hpj : p.1 = j
      · simp only [observedBy, if_neg hpi, if_pos hpj, List.length_cons]
        omega
      · simp only [observedBy, if_neg hpi, if_neg hpj, List.length_cons]
        omega

/-- Every path that `create_dir_all` is asked for — the directory and all
its ancestors — exists afterwards. -/
theorem mem_createDirAll (fs : FsState) (dir : FPath) (d : FPath)
    (hd : d ∈ pathPrefixes dir) :
    d ∈ (createDirAll fs dir).dirs := by
  by_cases h : d ∈ fs.dirs
  · exact List.mem_append.mpr (Or.inl h)
  · exact List.mem_append.mpr (Or.inr (List.mem_filter.mpr ⟨hd, by simp [h]⟩))

/-- The component path of the rendezvous socket renders to exactly the
string both binaries derive. -/
theorem socketPathComps_toString (name : String) :
    pathToString (socketPathComps name) = serverSocketPath name := by
  have h : String.intercalate "/" ["tmp", "rstmux", name ++ ".sock"]
      = "tmp/rstmux/" ++ (name ++ ".sock") := by
    simp [String.intercalate, String.intercalate.go]
  simp only [pathToString, socketPathComps, serverSocketPath, h]
  rw [← String.append_assoc, ← String.append_assoc]
  rfl

/-- After the stop flag is raised the listener loop runs no further
iteration. -/
theorem runListener_stopped (s : ListenerState) (h : s.stop = true)
    (l : List (AcceptEvent × Bool)) :
    runListener s l = (s, 0) := by
  cases l with
  | nil => rfl
  | cons x xs =>
    obtain ⟨ev, childExited⟩ := x
    simp [runListener, h]

/-- A loop iteration with a non-fatal accept and the shell still alive
recurses after handling the accept. -/
theorem runListener_quiet (s : ListenerState) (hs : s.stop = false)
    (ev : AcceptEvent) (hev : ev ≠ AcceptEvent.fatal)
    (rest : List (AcceptEvent × Bool)) :
    runListener s ((ev, false) :: rest)
      = ((runListener (afterAccept s ev) rest).1,
         (runListener (afterAccept s ev) rest).2 + 1) := by
  simp [runListener, hs, hev, ptyStopped]

/-- The iteration during which the shell child exits raises the stop
flag at its end, and the loop breaks at the very next top-of-loop
check: no iteration after it runs. -/
theorem runListener_exit_now (s : ListenerState) (hs : s.stop = false)
    (ev : AcceptEvent) (hev : ev ≠ AcceptEvent.fatal)
    (rest : List (AcceptEvent × Bool)) :
    runListener s ((ev, true) :: rest)
      = (⟨true, (afterAccept s ev).clients⟩, 1) := by
  simp [runListener, hs, hev, ptyStopped,
    runListener_stopped ⟨true, (afterAccept s ev).clients⟩ rfl rest]

/-- The shutdown sweep attempts every registered client, each attempt's
outcome a function of that client alone: the sweep around any one client
is the sweep of the clients before it, its own attempt, and the sweep of
the clients after it. -/
theorem stopSweep_append (cs1 cs2 : List RegClient) (c : RegClient) :
    stopSweep (cs1 ++ c :: cs2)
      = stopSweep cs1 ++ clientStopResult c :: stopSweep cs2 := by
  simp [stopSweep]

/-- One stop attempt per registered client. -/
theorem stopSweep_length (l : List RegClient) :
    (stopSweep l).length = l.length := by
  simp [stopSweep]

/-! ### Claim theorems -/

/-- C2: confirmed.  The aggregator's sole consumer
(`Server::process_input`) issues exactly one PTY write per received
chunk, with the whole unmodified chunk as payload and in arrival order —
its write payloads are an initial segment of the arrived queue
(chunk-atomic, never split, never reordered), and are the whole queue
when no write fails and no stop intervenes.  And the chunks a client's
input pump (`Client::process_input`) enqueues are exactly the contiguous
byte runs read from its socket, in order: their concatenation is an
initial segment of the socket's pending byte stream. -/
theorem aggregator_chunk_atomic_in_order :
    (∀ evs : List ConsumerEvent, aggregatorWrites evs <+: arrivedChunks evs) ∧
    (∀ queue : List Chunk,
      aggregatorWrites (queue.map fun d => ConsumerEvent.chunk d true) = queue) ∧
    (∀ (pending : List Byte) (evs : List PumpEvent),
      (inputPump pending evs).flatten <+: pending) :=
  ⟨aggregatorWrites_arrival, aggregatorWrites_all, inputPump_flat⟩

/-- C3: confirmed.  On a fresh session, a first `take_writer` call whose
descriptor duplication succeeds returns the write handle; every
subsequent call — whatever its duplication outcome — fails with the
"already taken" error, while the first-obtained handle stays among the
issued (still open) descriptors; and over any call sequence at most one
call ever succeeds. -/
theorem take_writer_succeeds_at_most_once (f0 : Nat) (ds : List Bool) :
    (runTakes (initialWriterState f0) (true :: ds)).1
      = Except.ok f0 :: (ds.map fun _ => Except.error TakeErr.alreadyTaken) ∧
    f0 ∈ (runTakes (initialWriterState f0) (true :: ds)).2.issued ∧
    (∀ calls : List Bool,
      ((runTakes (initialWriterState f0) calls).1.countP fun r => r.isOk) ≤ 1) := by
  have h1 : runTakes (initialWriterState f0) (true :: ds)
      = (Except.ok f0 :: (ds.map fun _ => Except.error TakeErr.alreadyTaken),
         ⟨true, f0 + 1, [f0]⟩) := by
    simp [runTakes, takeWriter, initialWriterState,
      runTakes_after_taken ds ⟨true, f0 + 1, [f0]⟩ rfl]
  refine ⟨by rw [h1], by rw [h1]; exact List.mem_singleton.mpr rfl, ?_⟩
  intro calls
  exact runTakes_ok_count calls _ rfl

/-- C4: confirmed.  `FileDescriptor::read` translates a failing OS read
with errno `EIO` (worker side of the PTY closed) into end-of-stream
`Ok(0)`; any other errno is surfaced as the error, and a successful read
returns its byte count unchanged. -/
theorem read_translates_eio_to_eof :
    fdRead (OsReadResult.err EIO) = Except.ok 0 ∧
    (∀ e : Nat, e ≠ EIO → fdRead (OsReadResult.err e) = Except.error e) ∧
    (∀ n : Nat, fdRead (OsReadResult.ok n) = Except.ok n) := by
  refine ⟨rfl, ?_, fun n => rfl⟩
  intro e he
  simp [fdRead, he]

/-- Witness for C4 at errno 13 (EACCES): a non-EIO failure is surfaced. -/
theorem read_translates_eio_to_eof_witness :
    fdRead (OsReadResult.err 13) = Except.error 13 :=
  read_translates_eio_to_eof.2.1 13 (by decide)

/-- C5: the code leaks the controller descriptor on partial failure.
Evaluating `Pty::open`'s descriptor accounting with the controller
opened as fd 3 and the worker as fd 4: each later-step failure (grant,
unlock, ptsname, worker open, spawn) returns the surfaced error with
fd 3 still open — the raw controller fd is wrapped into the RAII
`FileDescriptor` only on the success path (src/pty.rs:70), so no error
path closes it.  Only the success path leaves no unowned descriptor. -/
theorem open_partial_failure_leaks_controller :
    ptyOpen ⟨some 3, false, true, true, some 4, true⟩
      = (Except.error OpenError.grant, [3]) ∧
    ptyOpen ⟨some 3, true, false, true, some 4, true⟩
      = (Except.error OpenError.unlock, [3]) ∧
    ptyOpen ⟨some 3, true, true, false, some 4, true⟩
      = (Except.error OpenError.ptsname, [3]) ∧
    ptyOpen ⟨some 3, true, true, true, none, true⟩
      = (Except.error OpenError.workerOpen, [3]) ∧
    ptyOpen ⟨some 3, true, true, true, some 4, false⟩
      = (Except.error OpenError.spawn, [3]) ∧
    ptyOpen ⟨some 3, true, true, true, some 4, true⟩ = (Except.ok 3, []) :=
  ⟨rfl, rfl, rfl, rfl, rfl, rfl⟩

/-- C10: confirmed.  Every chunk the client input pump enqueues is
nonempty (a zero-byte read is EOF and breaks the loop instead) and at
most `INBUF_SIZE = 1024` bytes long (the fixed read-buffer size). -/
theorem input_chunks_nonempty_and_bounded (pending : List Byte)
    (evs : List PumpEvent) (c : Chunk) (hc : c ∈ inputPump pending evs) :
    c ≠ [] ∧ c.length ≤ 1024 := by
  induction evs generalizing pending with
  | nil => simp [inputPump] at hc
  | cons ev rest ih =>
    cases ev with
    | stopObserved => simp [inputPump] at hc
    | readErr => simp [inputPump] at hc
    | read avail sendOk =>
      by_cases hn : min avail (min INBUF_SIZE pending.length) = 0
      · simp [inputPump, hn] at hc
      · cases sendOk with
        | false => simp [inputPump, hn] at hc
        | true =>
          simp only [inputPump, hn, if_false, if_true, List.mem_cons] at hc
          rcases hc with hc | hc
          · have hlen : c.length = min avail (min INBUF_SIZE pending.length) := by
              rw [hc, List.length_take]
              exact Nat.min_eq_left
                (le_trans (Nat.min_le_right _ _) (Nat.min_le_right _ _))
            refine ⟨?_, ?_⟩
            · intro hnil
              exact hn (by simpa [hnil] using hlen.symm)
            · rw [hlen]
              exact le_trans (Nat.min_le_right _ _) (Nat.min_le_left _ _)
          · exact ih _ hc

/-- Witness for C10: the chunk enqueued from a concrete two-byte socket
stream. -/
theorem input_chunks_nonempty_and_bounded_witness :
    ([7, 8] : Chunk) ≠ [] ∧ ([7, 8] : Chunk).length ≤ 1024 :=
  input_chunks_nonempty_and_bounded [7, 8] [PumpEvent.read 5 true] [7, 8]
    (by decide)

/-- C7 counterexample: the input pump's EOF trigger enters the Stopping
state (the stop flag becomes set) without shutting the socket down in
either direction, refuting "entering the Stopping state shuts the socket
down in both directions". -/
theorem stop_entry_without_shutdown :
    (connStep ⟨false, false⟩ Trigger.inputPumpEnd).stopFlag = true ∧
    (connStep ⟨false, false⟩ Trigger.inputPumpEnd).sockShutdown = false := by
  decide

/-- C7 amended: the stop flag only transitions false to true — once set
it never reverts under any further trigger sequence — and every trigger
is idempotent under repetition; but the socket is shut down in both
directions only by a `Client::stop` call whose shutdown succeeds:
pump-local triggers set the flag and leave the socket untouched, and a
`Client::stop` whose socket shutdown fails changes nothing (in
particular it does not set the flag). -/
theorem stop_flag_monotone_shutdown_only_on_stop :
    (∀ (s : ConnState) (ts : List Trigger),
      s.stopFlag = true → (connRun s ts).stopFlag = true) ∧
    (∀ (s : ConnState) (t : Trigger), connStep (connStep s t) t = connStep s t) ∧
    (∀ s : ConnState,
      (connStep s Trigger.inputPumpEnd).sockShutdown = s.sockShutdown) ∧
    (∀ s : ConnState,
      (connStep s Trigger.outputPumpEnd).sockShutdown = s.sockShutdown) ∧
    (∀ s : ConnState, connStep s (Trigger.stopCall false) = s) ∧
    (∀ s : ConnState, (connStep s (Trigger.stopCall true)).stopFlag = true ∧
      (connStep s (Trigger.stopCall true)).sockShutdown = true) := by
  refine ⟨?_, ?_, fun s => rfl, fun s => rfl, fun s => rfl,
    fun s => ⟨rfl, rfl⟩⟩
  · intro s ts h
    induction ts generalizing s with
    | nil => exact h
    | cons t ts ih =>
      apply ih
      cases t with
      | inputPumpEnd => rfl
      | outputPumpEnd => rfl
      | stopCall ok => cases ok with
        | true => rfl
        | false => exact h
  · intro s t
    cases t with
    | inputPumpEnd => rfl
    | outputPumpEnd => rfl
    | stopCall ok => cases ok <;> rfl

/-- Witness for C7 (amended): monotonicity applied at a concrete
already-stopped state and trigger list. -/
theorem stop_flag_monotone_witness :
    (connRun ⟨true, false⟩ [Trigger.inputPumpEnd]).stopFlag = true :=
  stop_flag_monotone_shutdown_only_on_stop.1 ⟨true, false⟩
    [Trigger.inputPumpEnd] rfl

/-- C1 counterexample: two concurrently connected clients hold two
distinct duplicated PTY readers (fds 10 and 11 — not one shared logical
reader), and under the shared-stream read semantics a schedule where
each pump completes one read gives client 0 the stream `[[104]]` and
client 1 the stream `[[105]]`: not byte-identical, each an arbitrary
fragment of the output. -/
theorem duplicated_readers_not_byte_identical :
    (acceptedClients 2 10).map SClient.readerFd = [10, 11] ∧
    observedBy 0 (raceReads [[104], [105]] [0, 1]) = [[104]] ∧
    observedBy 1 (raceReads [[104], [105]] [0, 1]) = [[105]] ∧
    observedBy 0 (raceReads [[104], [105]] [0, 1])
      ≠ observedBy 1 (raceReads [[104], [105]] [0, 1]) := by
  decide

/-- C1 amended: the server does not enforce a single logical reader —
every accepted client is handed its own reader duplicated from the
controller descriptor (pairwise-distinct descriptors, one per client),
and the clients' output pumps race to read the one shared underlying
stream: reads consume the stream in order with each chunk delivered to
exactly the one client whose pump performed that read, so each client
observes a subsequence (fragment) of the output and deliveries to two
distinct clients are disjoint — not byte-identical streams. -/
theorem per_client_readers_fragment_output (n f0 : Nat)
    (stream : List Chunk) (sched : List Nat) :
    ((acceptedClients n f0).map SClient.readerFd).Nodup ∧
    (raceReads stream sched).map Prod.snd <+: stream ∧
    (raceReads stream sched).length = min stream.length sched.length ∧
    (∀ i : Nat, List.Sublist (observedBy i (raceReads stream sched)) stream) ∧
    (∀ i j : Nat, i ≠ j →
      (observedBy i (raceReads stream sched)).length
        + (observedBy j (raceReads stream sched)).length
        ≤ (raceReads stream sched).length) := by
  refine ⟨?_, raceReads_chunks stream sched, raceReads_length stream sched,
    fun i => observedBy_sub i stream sched,
    fun i j hij => observedBy_pair_length i j hij _⟩
  have h1 : (acceptedClients n f0).map SClient.readerFd
      = (List.range n).map fun k => f0 + k := by
    simp [acceptedClients, List.map_map]
  have hinj : Function.Injective fun k => f0 + k := fun a b hab =>
    Nat.add_left_cancel hab
  rw [h1]
  exact List.Nodup.map hinj (List.nodup_range n)

/-- Witness for C1 (amended): disjointness of the deliveries to clients
0 and 1 at a concrete stream and schedule. -/
theorem per_client_readers_fragment_witness :
    (observedBy 0 (raceReads [[104], [105]] [0, 1])).length
      + (observedBy 1 (raceReads [[104], [105]] [0, 1])).length
      ≤ (raceReads [[104], [105]] [0, 1]).length :=
  (per_client_readers_fragment_output 2 10 [[104], [105]] [0, 1]).2.2.2.2 0 1
    (by decide)

/-- C8: confirmed.  Server and client derive the same rendezvous path
`/tmp/rstmux/<name>.sock` from the session name; the component-path
model of that string has parent `/tmp/rstmux`; `bind_unix_socket` first
creates the missing parent directories (`/tmp` and `/tmp/rstmux` both
exist afterwards), then removes a stale artifact at the path (it is
absent when the bind happens), and the bound socket then occupies the
path. -/
theorem rendezvous_path_deterministic_and_prepared (name : String)
    (fs : FsState) :
    serverSocketPath name = clientSocketPath name ∧
    pathToString (socketPathComps name) = serverSocketPath name ∧
    pathParent (socketPathComps name) = some ["tmp", "rstmux"] ∧
    ["tmp"] ∈ (bindPrepareDirs fs (socketPathComps name)).dirs ∧
    ["tmp", "rstmux"] ∈ (bindPrepareDirs fs (socketPathComps name)).dirs ∧
    socketPathComps name ∉
      (bindRemoveStale (bindPrepareDirs fs (socketPathComps name))
        (socketPathComps name)).files ∧
    socketPathComps name ∈ (bindUnixSocket fs (socketPathComps name)).files := by
  refine ⟨rfl, socketPathComps_toString name, rfl, ?_, ?_, ?_, ?_⟩
  · exact mem_createDirAll fs ["tmp", "rstmux"] ["tmp"] (by simp [pathPrefixes])
  · exact mem_createDirAll fs ["tmp", "rstmux"] ["tmp", "rstmux"]
      (by simp [pathPrefixes])
  · by_cases h : socketPathComps name
        ∈ (bindPrepareDirs fs (socketPathComps name)).files
    · simp [bindRemoveStale, h, List.mem_filter]
    · simp [bindRemoveStale, h]
  · simp [bindUnixSocket]

/-- C9 counterexample: on a connection-setup failure (the connect call
fails), `client.run().unwrap()` panics before the notice `println!` is
reached — the process ends with nothing printed, so the termination
notice is not printed "regardless of cause". -/
theorem setup_failure_panics_without_notice :
    clientMain ⟨false, true, true⟩ = ProcExit.panicked [] ∧
    TERMINATION_NOTICE ∉ printedLines (clientMain ⟨false, true, true⟩) := by
  refine ⟨rfl, ?_⟩
  simp [clientMain, clientRun, printedLines]

/-- C9 amended: the client prints the termination notice exactly when
`run()` returns success (connection established and the pumps ended, for
any cause of the connection ending thereafter); when setup fails —
connect error or either stream-clone error — `run()` returns an error
and the process panics on the `unwrap` without printing the notice. -/
theorem notice_printed_iff_run_returned (s : ClientSetup) :
    (clientRun s = Except.ok () →
      clientMain s = ProcExit.normal [TERMINATION_NOTICE]) ∧
    (clientRun s = Except.error () →
      clientMain s = ProcExit.panicked [] ∧
      TERMINATION_NOTICE ∉ printedLines (clientMain s)) := by
  constructor
  · intro h
    simp [clientMain, h]
  · intro h
    simp [clientMain, h, printedLines]

/-- Witness for C9 (amended): a fully successful setup prints the
notice. -/
theorem notice_printed_witness :
    clientMain ⟨true, true, true⟩ = ProcExit.normal [TERMINATION_NOTICE] :=
  (notice_printed_iff_run_returned ⟨true, true, true⟩).1 rfl

/-- C6: confirmed (with `Pty::stopped` modelled from the spec as the
shell-child-exit check).  If the shell child exits during iteration
`pre.length` of the listener loop (all earlier iterations non-fatal and
with the child alive), the stop flag is raised at that iteration's end
and the loop breaks at the very next top-of-loop check — exactly
`pre.length + 1` iterations run, whatever comes after — and the
shutdown sweep then asks every registered connection to stop, one
attempt per client, each attempt's outcome a function of that client
alone, so one client's failure never prevents stopping the others. -/
theorem shell_exit_bounded_stop_of_all_clients (pre : List AcceptEvent)
    (ev : AcceptEvent) (post : List (AcceptEvent × Bool))
    (cs : List RegClient) (hpre : AcceptEvent.fatal ∉ pre)
    (hev : ev ≠ AcceptEvent.fatal) :
    (runListener ⟨false, cs⟩
      ((pre.map fun e => (e, false)) ++ (ev, true) :: post)).2
      = pre.length + 1 ∧
    (runListener ⟨false, cs⟩
      ((pre.map fun e => (e, false)) ++ (ev, true) :: post)).1.stop = true ∧
    (∀ (cs1 cs2 : List RegClient) (c : RegClient),
      stopSweep (cs1 ++ c :: cs2)
        = stopSweep cs1 ++ clientStopResult c :: stopSweep cs2) ∧
    (∀ l : List RegClient, (stopSweep l).length = l.length) := by
  refine ⟨?_, ?_, stopSweep_append, stopSweep_length⟩ <;>
  · induction pre generalizing cs with
    | nil =>
      simp [runListener_exit_now ⟨false, cs⟩ rfl ev hev post]
    | cons e pre' ih =>
      have hpre' : AcceptEvent.fatal ∉ pre' := fun h =>
        hpre (List.mem_cons_of_mem e h)
      have he : e ≠ AcceptEvent.fatal := fun h =>
        hpre (h ▸ List.mem_cons_self e pre')
      rw [List.map_cons, List.cons_append,
        runListener_quiet ⟨false, cs⟩ rfl e he _]
      cases e with
      | fatal => exact absurd rfl he
      | conn c => simpa [afterAccept] using ih (registerClient cs c) hpre'
      | wouldBlock => simpa [afterAccept] using ih cs hpre'

/-- Witness for C6: one quiet iteration, then the shell exits during the
second iteration; the loop runs exactly two iterations. -/
theorem shell_exit_bounded_witness :
    (runListener ⟨false, []⟩
      [(AcceptEvent.wouldBlock, false),
       (AcceptEvent.conn ⟨false, true⟩, true)]).2 = 2 :=
  (shell_exit_bounded_stop_of_all_clients [AcceptEvent.wouldBlock]
    (AcceptEvent.conn ⟨false, true⟩) [] [] (by decide) (by decide)).1

end RsTmux
